import Mathlib

/-!
Highlight-on-load script (`target_app/static/js/highlight.js`).

A shallow embedding of the script and of the part of the browser it talks to.

* The document is a tree of nodes (elements and text nodes).  A JavaScript
  reference to a node that lives in the document is the list of child indices
  leading to it from the root (`Path`).
* The inline style object `el.style` is an ordered list of declarations
  (property name, value), keyed by the camel-case names the script uses;
  assigning `el.style.p = v` stores the string `v` under the name `p`
  (overwriting in place, or appending) and removes the declarations the
  assignment supersedes: the sub-properties of a shorthand such as `border` or
  `transition`, and the shorthands that include `p`.  Values are kept as the
  strings the script assigns.
* Every DOM operation returns `Except JSError _`, so that "no error is raised"
  is a statement about the code and not an assumption.
* `setTimeout` records a pending timer; the only closure the script ever hands
  to `setTimeout` is the arrow function of lines 6-35, which captures
  `targetId`, so a pending timer is its delay and its captured `targetId`.
* `new URLSearchParams(...)` is a platform parser and is taken as a parameter
  `parse`; `URLSearchParams.get` is modelled on the parsed pairs.
-/

namespace Highlight

/-! ## Inline styles -/

/-- The inline style declaration block of an element. -/
abbrev Style := List (String × String)

/-- Reading `style.p`: the value of the first declaration named `p`. -/
def Style.get : Style → String → Option String
  | [], _ => none
  | (k, v) :: rest, p => if k = p then some v else Style.get rest p

/-- The other declarations that an assignment to the property `p` overwrites or
    overrides: the sub-properties a shorthand covers (for `border` the per-side and
    per-aspect border properties, physical and flow-relative, and the border image, which
    it resets; for `transition` its four components and the behavior), and the shorthands
    that include `p` (every property is part of `all`). Tabulated for the property names
    the script assigns; no other name reaches `Style.set`. -/
def superseded (p : String) : List String :=
  if p = "border" then
    ["borderTop", "borderRight", "borderBottom", "borderLeft",
     "borderWidth", "borderStyle", "borderColor",
     "borderTopWidth", "borderRightWidth", "borderBottomWidth", "borderLeftWidth",
     "borderTopStyle", "borderRightStyle", "borderBottomStyle", "borderLeftStyle",
     "borderTopColor", "borderRightColor", "borderBottomColor", "borderLeftColor",
     "borderImage", "borderImageSource", "borderImageSlice", "borderImageWidth",
     "borderImageOutset", "borderImageRepeat",
     "borderBlock", "borderInline",
     "borderBlockWidth", "borderBlockStyle", "borderBlockColor",
     "borderInlineWidth", "borderInlineStyle", "borderInlineColor",
     "borderBlockStart", "borderBlockEnd", "borderInlineStart", "borderInlineEnd",
     "borderBlockStartWidth", "borderBlockStartStyle", "borderBlockStartColor",
     "borderBlockEndWidth", "borderBlockEndStyle", "borderBlockEndColor",
     "borderInlineStartWidth", "borderInlineStartStyle", "borderInlineStartColor",
     "borderInlineEndWidth", "borderInlineEndStyle", "borderInlineEndColor",
     "all"]
  else if p = "transition" then
    ["transitionProperty", "transitionDuration", "transitionTimingFunction",
     "transitionDelay", "transitionBehavior", "all"]
  else if p = "padding" then
    ["paddingTop", "paddingRight", "paddingBottom", "paddingLeft",
     "paddingBlock", "paddingInline",
     "paddingBlockStart", "paddingBlockEnd", "paddingInlineStart", "paddingInlineEnd",
     "all"]
  else if p = "borderRadius" then
    ["borderTopLeftRadius", "borderTopRightRadius", "borderBottomRightRadius",
     "borderBottomLeftRadius", "borderStartStartRadius", "borderStartEndRadius",
     "borderEndStartRadius", "borderEndEndRadius", "all"]
  else if p = "top" ∨ p = "right" then
    ["inset", "insetBlock", "insetInline",
     "insetBlockStart", "insetBlockEnd", "insetInlineStart", "insetInlineEnd", "all"]
  else if p = "backgroundColor" then ["background", "all"]
  else if p = "fontSize" ∨ p = "fontWeight" then ["font", "all"]
  else if p = "boxShadow" ∨ p = "position" ∨ p = "zIndex" ∨ p = "color" then ["all"]
  else []

/-- Remove the declarations with the given names. -/
def Style.drop (names : List String) : Style → Style
  | [] => []
  | (k, w) :: rest =>
    if k ∈ names then Style.drop names rest else (k, w) :: Style.drop names rest

/-- Write the declaration `p: v`: overwrite it in place, or append it. -/
def Style.put : Style → String → String → Style
  | [], p, v => [(p, v)]
  | (k, w) :: rest, p, v => if k = p then (k, v) :: rest else (k, w) :: Style.put rest p v

/-- Assigning `style.p = v`: the declarations the assignment supersedes go, and the
    declaration `p: v` is written. -/
def Style.set (s : Style) (p v : String) : Style :=
  Style.put (Style.drop (superseded p) s) p v

/-! ## The document tree -/

/-- A DOM node: a text node or an element with tag, id, inline style and children. -/
inductive Node where
  | text (data : String)
  | element (tag : String) (id : String) (style : Style) (children : List Node)

/-- A reference to a node of the document: child indices from the root. -/
abbrev Path := List Nat

/-- Errors a DOM call of the script could raise. -/
inductive JSError where
  | typeError
  | hierarchyRequestError
  deriving DecidableEq, Repr

/-- Dereference a path. -/
def Node.get? : Node → Path → Option Node
  | n, [] => some n
  | .text _, _ :: _ => none
  | .element _ _ _ cs, i :: p =>
    match cs[i]? with
    | some c => Node.get? c p
    | none => none

/-- The document with the node at a path replaced by another node. -/
def Node.replace : Node → Path → Node → Node
  | _, [], n => n
  | .text d, _ :: _, _ => .text d
  | .element t i s cs, k :: p, n =>
    match cs[k]? with
    | some c => .element t i s (cs.set k (Node.replace c p n))
    | none => .element t i s cs

/-- Apply a mutation to the node a reference points to. A dangling reference
    is a `TypeError` (the script never produces one). -/
def Node.modify : Node → Path → (Node → Except JSError Node) → Except JSError Node
  | n, [], f => f n
  | .text _, _ :: _, _ => .error .typeError
  | .element t i s cs, k :: p, f =>
    match cs[k]? with
    | some c =>
      match Node.modify c p f with
      | .ok c' => .ok (.element t i s (cs.set k c'))
      | .error e => .error e
    | none => .error .typeError

mutual
/-- Tree-order search for the first element whose id is `v`, below and including a node. -/
def findNode (v : String) : Node → Option Path
  | .text _ => none
  | .element _ id _ cs => if id = v then some [] else findList v 0 cs
/-- Tree-order search through a list of siblings, the first of which has index `i`. -/
def findList (v : String) (i : Nat) : List Node → Option Path
  | [] => none
  | c :: cs =>
    match findNode v c with
    | some p => some (i :: p)
    | none => findList v (i + 1) cs
end

/-- The `document.getElementById(v)` call: the first element in tree order whose id is `v`;
    an element without an id has id `""`, which never matches. -/
def getElementById (document : Node) (v : String) : Option Path :=
  if v = "" then none else findNode v document

mutual
/-- Getter of `node.textContent`: the concatenated text of all descendants. -/
def Node.textContent : Node → String
  | .text d => d
  | .element _ _ _ cs => textContentList cs
/-- Concatenated text of a list of siblings. -/
def textContentList : List Node → String
  | [] => ""
  | c :: cs => Node.textContent c ++ textContentList cs
end

/-- Setter of `node.textContent`: an element's children are replaced by one text node
    (none for the empty string); a text node's data is replaced. -/
def Node.setTextContent (s : String) : Node → Node
  | .text _ => .text s
  | .element t i st _ => .element t i st (if s = "" then [] else [.text s])

/-- Assignment `node.style.p = v`; a text node has no `style`, so the assignment throws. -/
def Node.setStyleProperty (p v : String) : Node → Except JSError Node
  | .text _ => .error .typeError
  | .element t i s cs => .ok (.element t i (Style.set s p v) cs)

/-- The `parent.appendChild(child)` call: the child becomes the last child of an element;
    a text node cannot have children. -/
def Node.appendChild (child : Node) : Node → Except JSError Node
  | .text _ => .error .hierarchyRequestError
  | .element t i s cs => .ok (.element t i s (cs ++ [child]))

/-- Tag of an element (`none` for a text node). -/
def Node.tag? : Node → Option String
  | .text _ => none
  | .element t _ _ _ => some t

/-- Inline style of a node (empty for a text node). -/
def Node.style : Node → Style
  | .text _ => []
  | .element _ _ s _ => s

/-! ## The window -/

/-- The options object passed to `scrollIntoView`. -/
structure ScrollIntoViewOptions where
  behavior : String
  block : String
  deriving DecidableEq, Repr

/-- One recorded `scrollIntoView` call. -/
structure ScrollCall where
  target : Path
  options : ScrollIntoViewOptions
  deriving DecidableEq, Repr

/-- A pending `setTimeout` of the script: the delay in ms and the `targetId`
    captured by the arrow function. -/
structure Timer where
  delay : Nat
  targetId : String
  deriving DecidableEq, Repr

/-- The browser state the script reads and writes. -/
structure Window where
  /-- The string `window.location.search`. -/
  search : String
  /-- The live document tree. -/
  document : Node
  /-- Timers scheduled and not yet fired. -/
  timers : List Timer
  /-- The `scrollIntoView` calls issued so far, oldest first. -/
  scrollCalls : List ScrollCall
  /-- Number of nodes created by `document.createElement` so far. -/
  created : Nat

/-- The parsed query: name/value pairs in order. -/
abbrev URLSearchParams := List (String × String)

/-- The `params.get(name)` call: the value of the first pair named `name`, or null. -/
def URLSearchParams.get : URLSearchParams → String → Option String
  | [], _ => none
  | (k, v) :: rest, name => if k = name then some v else URLSearchParams.get rest name

/-- `el.style.p = v` through a reference into the document. -/
def Window.setStyle (w : Window) (el : Path) (p v : String) : Except JSError Window :=
  match w.document.modify el (Node.setStyleProperty p v) with
  | .ok d => .ok { w with document := d }
  | .error e => .error e

/-- The `document.createElement(tag)` call: a fresh detached element. -/
def Window.createElement (w : Window) (tag : String) : Window × Node :=
  ({ w with created := w.created + 1 }, .element tag "" [] [])

/-- `el.appendChild(child)` through a reference into the document. -/
def Window.appendChild (w : Window) (el : Path) (child : Node) : Except JSError Window :=
  match w.document.modify el (Node.appendChild child) with
  | .ok d => .ok { w with document := d }
  | .error e => .error e

/-- `el.scrollIntoView(options)`: recorded; only elements have the method. -/
def Window.scrollIntoView (w : Window) (el : Path) (o : ScrollIntoViewOptions) :
    Except JSError Window :=
  match w.document.get? el with
  | some (.element _ _ _ _) => .ok { w with scrollCalls := w.scrollCalls ++ [⟨el, o⟩] }
  | _ => .error .typeError

/-- The `setTimeout(callback, delay)` call for the script's arrow function. -/
def Window.setTimeout (w : Window) (targetId : String) (delay : Nat) : Window :=
  { w with timers := w.timers ++ [⟨delay, targetId⟩] }

/-! ## The script -/

/-- Lines 17-29: the badge after `createElement("div")`, the `textContent`
    assignment and the eleven style assignments. -/
def styleBadge (badge : Node) : Except JSError Node := do
  let badge := badge.setTextContent "실험 대상 (Target)"
  let badge ← badge.setStyleProperty "position" "absolute"
  let badge ← badge.setStyleProperty "top" "-12px"
  let badge ← badge.setStyleProperty "right" "10px"
  let badge ← badge.setStyleProperty "backgroundColor" "#ef4444"
  let badge ← badge.setStyleProperty "color" "white"
  let badge ← badge.setStyleProperty "fontSize" "12px"
  let badge ← badge.setStyleProperty "fontWeight" "bold"
  let badge ← badge.setStyleProperty "padding" "4px 8px"
  let badge ← badge.setStyleProperty "borderRadius" "12px"
  let badge ← badge.setStyleProperty "zIndex" "51"
  badge.setStyleProperty "boxShadow" "0 2px 5px rgba(0,0,0,0.2)"

/-- Lines 6-35: the arrow function handed to `setTimeout`, run on the window as
    it is when the timer fires. -/
def timerCallback (targetId : String) (w : Window) : Except JSError Window :=
  match getElementById w.document targetId with
  | none => .ok w
  | some el => do
    let w ← w.setStyle el "border" "4px solid #ef4444"
    let w ← w.setStyle el "boxShadow" "0 0 20px rgba(239, 68, 68, 0.6)"
    let w ← w.setStyle el "transition" "all 0.5s ease-in-out"
    let w ← w.setStyle el "position" "relative"
    let w ← w.setStyle el "zIndex" "50"
    let (w, badge) := w.createElement "div"
    let badge ← styleBadge badge
    let w ← w.appendChild el badge
    w.scrollIntoView el ⟨"smooth", "center"⟩

/-- Lines 1-37: the `DOMContentLoaded` handler. `if (targetId)` holds exactly for a
    non-null, non-empty string. -/
def handler (parse : String → URLSearchParams) (w : Window) : Window :=
  let params := parse w.search
  match URLSearchParams.get params "highlight" with
  | none => w
  | some targetId => if targetId = "" then w else w.setTimeout targetId 100

/-- Firing pending timers in order. -/
def runTimers : List Timer → Window → Except JSError Window
  | [], w => .ok w
  | t :: ts, w =>
    match timerCallback t.targetId w with
    | .ok w' => runTimers ts w'
    | .error e => .error e

/-- The window at the start of a page load: nothing pending, nothing recorded. -/
def initialWindow (search : String) (document : Node) : Window :=
  { search := search, document := document, timers := [], scrollCalls := [], created := 0 }

/-- The handler dispatched `n` times in a row (`DOMContentLoaded` fires once per
    load, so a page load is `n = 1`). -/
def dispatch (parse : String → URLSearchParams) : Nat → Window → Window
  | 0, w => w
  | n + 1, w => dispatch parse n (handler parse w)

/-- A page load with `n` dispatches of the handler on the document `atLoad`; then
    unrelated code may turn the document into `atFire`; then the pending timers fire. -/
def pageLoadN (parse : String → URLSearchParams) (n : Nat) (search : String)
    (atLoad atFire : Node) : Except JSError Window :=
  let w1 := dispatch parse n (initialWindow search atLoad)
  runTimers w1.timers { w1 with document := atFire, timers := [] }

/-- A page load: one dispatch of the handler, then the timer fires. -/
def pageLoad (parse : String → URLSearchParams) (search : String) (atLoad atFire : Node) :
    Except JSError Window :=
  pageLoadN parse 1 search atLoad atFire

/-- What a node is by itself, apart from which nodes its children are. -/
structure NodeInfo where
  tag : Option String
  id : String
  style : Style
  data : String
  childCount : Nat
  deriving DecidableEq, Repr

/-- The own properties of a node. -/
def Node.info : Node → NodeInfo
  | .text d => ⟨none, "", [], d, 0⟩
  | .element t i s cs => ⟨some t, i, s, "", cs.length⟩

/-! ## Closed forms of what the success branch writes -/

/-- The inline style of the target after lines 10-14. -/
def highlightStyle (s : Style) : Style :=
  ((((Style.set s "border" "4px solid #ef4444").set
    "boxShadow" "0 0 20px rgba(239, 68, 68, 0.6)").set
    "transition" "all 0.5s ease-in-out").set
    "position" "relative").set
    "zIndex" "50"

/-- The badge as it is when line 30 appends it. -/
def badge : Node :=
  .element "div" ""
    [("position", "absolute"), ("top", "-12px"), ("right", "10px"),
     ("backgroundColor", "#ef4444"), ("color", "white"), ("fontSize", "12px"),
     ("fontWeight", "bold"), ("padding", "4px 8px"), ("borderRadius", "12px"),
     ("zIndex", "51"), ("boxShadow", "0 2px 5px rgba(0,0,0,0.2)")]
    [.text "실험 대상 (Target)"]

/-- The target element after the success branch ran on it. -/
def highlighted (t i : String) (s : Style) (cs : List Node) : Node :=
  .element t i (highlightStyle s) (cs ++ [badge])

/-! ## Reading the assigned strings as CSS values

The script stores strings; the claims about "z-index read as an integer" and
about the components of the glow shadow need those strings read by the CSS
value grammar (`<integer>`, `<length>`, `<color>`, and
`<shadow> = inset? && <length>{2,4} && <color>?`, whose lengths are, in order,
offset-x, offset-y, blur radius, spread radius). -/

/-- Whether a character is a decimal digit. -/
def isDigit (c : Char) : Bool := decide (48 ≤ c.toNat) && decide (c.toNat ≤ 57)

/-- Split off the leading run of digits. -/
def spanDigits : List Char → List Char × List Char
  | [] => ([], [])
  | c :: cs =>
    if isDigit c then ((c :: (spanDigits cs).1), (spanDigits cs).2) else ([], c :: cs)

/-- The number written by a run of digits. -/
def digitsToNat (ds : List Char) : Nat :=
  ds.foldl (fun acc c => 10 * acc + (c.toNat - 48)) 0

/-- A CSS `<integer>`: an optional sign and one or more digits. -/
def readInteger (s : String) : Option Int :=
  let body (cs : List Char) : Option Nat :=
    if cs ≠ [] ∧ (spanDigits cs).2 = [] then some (digitsToNat cs) else none
  match s.data with
  | '-' :: cs => (body cs).map (fun n => -(n : Int))
  | '+' :: cs => (body cs).map (fun n => (n : Int))
  | cs => (body cs).map (fun n => (n : Int))

/-- A decimal number `± mantissa / 10 ^ scale`, kept exactly. -/
structure Decimal where
  negative : Bool
  mantissa : Nat
  scale : Nat
  deriving DecidableEq, Repr

/-- A CSS `<number>` at the front of the input, and what follows it. -/
def readNumber (cs : List Char) : Option (Decimal × List Char) :=
  let signed : Bool × List Char :=
    match cs with
    | '-' :: r => (true, r)
    | '+' :: r => (false, r)
    | r => (false, r)
  let ip := (spanDigits signed.2).1
  let rest := (spanDigits signed.2).2
  let whole : Option (Decimal × List Char) :=
    if ip = [] then none else some (⟨signed.1, digitsToNat ip, 0⟩, rest)
  match rest with
  | '.' :: r =>
    let fp := (spanDigits r).1
    if fp = [] then whole
    else some (⟨signed.1, digitsToNat (ip ++ fp), fp.length⟩, (spanDigits r).2)
  | _ => whole

/-- A CSS `<length>`: a number and a unit. -/
structure Length where
  value : Decimal
  unit : String
  deriving DecidableEq, Repr

/-- The units of a CSS length. -/
def lengthUnits : List String :=
  ["px", "em", "rem", "ex", "ch", "vw", "vh", "vmin", "vmax", "cm", "mm", "in", "pt", "pc", "Q"]

/-- Read a whole token as a `<length>`; only zero may go without a unit. -/
def readLength (tok : List Char) : Option Length :=
  match readNumber tok with
  | none => none
  | some (d, rest) =>
    if String.mk rest ∈ lengthUnits then some ⟨d, String.mk rest⟩
    else if rest = [] ∧ d.mantissa = 0 then some ⟨d, ""⟩
    else none

/-- A CSS `<color>`: the `rgb()`/`rgba()` functional form is read into its
    components; any other colour token is kept as written. -/
inductive Color where
  | rgb (red green blue : Decimal) (alpha : Option Decimal)
  | other (text : String)
  deriving DecidableEq, Repr

/-- Split at the commas. -/
def splitCommas : List Char → List Char → List (List Char)
  | [], cur => [cur.reverse]
  | c :: cs, cur => if c = ',' then cur.reverse :: splitCommas cs [] else splitCommas cs (c :: cur)

/-- Remove leading and trailing spaces. -/
def trimSpaces (cs : List Char) : List Char :=
  ((cs.dropWhile (fun c => c = ' ')).reverse.dropWhile (fun c => c = ' ')).reverse

/-- Read a whole argument as a number. -/
def readArgument (cs : List Char) : Option Decimal :=
  match readNumber (trimSpaces cs) with
  | some (d, []) => some d
  | _ => none

/-- The arguments of a functional token `name(...)`, if the token has that form. -/
def functionArguments (name tok : List Char) : Option (List (List Char)) :=
  if (name ++ ['(']) <+: tok ∧ tok.getLast? = some ')' then
    some (splitCommas ((tok.drop (name.length + 1)).dropLast) [])
  else none

/-- Read a colour token. -/
def readColor (tok : List Char) : Color :=
  let args : Option (List (List Char)) :=
    match functionArguments "rgba".data tok with
    | some a => some a
    | none => functionArguments "rgb".data tok
  match args with
  | some [r, g, b] =>
    match readArgument r, readArgument g, readArgument b with
    | some r, some g, some b => .rgb r g b none
    | _, _, _ => .other (String.mk tok)
  | some [r, g, b, a] =>
    match readArgument r, readArgument g, readArgument b, readArgument a with
    | some r, some g, some b, some a => .rgb r g b (some a)
    | _, _, _, _ => .other (String.mk tok)
  | _ => .other (String.mk tok)

/-- Split a value into its components: at spaces outside parentheses. -/
def cssTokens : List Char → Nat → List Char → List (List Char)
  | [], _, cur => if cur = [] then [] else [cur.reverse]
  | c :: cs, depth, cur =>
    if c = ' ' ∧ depth = 0 then
      if cur = [] then cssTokens cs 0 [] else cur.reverse :: cssTokens cs 0 []
    else if c = '(' then cssTokens cs (depth + 1) (c :: cur)
    else if c = ')' then cssTokens cs (depth - 1) (c :: cur)
    else cssTokens cs depth (c :: cur)

/-- One `<shadow>`. -/
structure BoxShadow where
  inset : Bool
  offsetX : Length
  offsetY : Length
  blurRadius : Option Length
  spreadRadius : Option Length
  color : Option Color
  deriving DecidableEq, Repr

/-- The tokens around the lengths: at most one `inset` and at most one colour. -/
def readShadowExtras : List (List Char) → Option (Bool × Option Color)
  | [] => some (false, none)
  | [a] => if a = "inset".data then some (true, none) else some (false, some (readColor a))
  | [a, b] =>
    if a = "inset".data ∧ b ≠ "inset".data then some (true, some (readColor b))
    else if b = "inset".data ∧ a ≠ "inset".data then some (true, some (readColor a))
    else none
  | _ => none

/-- Read a single-shadow `box-shadow` value by
    `inset? && <length>{2,4} && <color>?`. -/
def parseBoxShadow (value : String) : Option BoxShadow :=
  let toks := cssTokens value.data 0 []
  let isLen (t : List Char) : Bool := (readLength t).isSome
  let before := toks.takeWhile (fun t => !isLen t)
  let lens := (toks.dropWhile (fun t => !isLen t)).takeWhile isLen
  let after := (toks.dropWhile (fun t => !isLen t)).dropWhile isLen
  if after.any isLen then none
  else
    match readShadowExtras (before ++ after), lens.filterMap readLength with
    | some (i, c), [x, y] => some ⟨i, x, y, none, none, c⟩
    | some (i, c), [x, y, b] => some ⟨i, x, y, some b, none, c⟩
    | some (i, c), [x, y, b, s] => some ⟨i, x, y, some b, some s, c⟩
    | _, _ => none

/-! ## Concrete inputs used in the examples -/

/-- What `new URLSearchParams` yields on the three queries used in the examples. -/
def exampleParse (search : String) : URLSearchParams :=
  if search = "?highlight=foo" then [("highlight", "foo")]
  else if search = "?highlight=" then [("highlight", "")]
  else if search = "?page=2" then [("page", "2")]
  else []

/-- A page: `<body>intro<p id="foo" style="color: red">hi</p><p id="bar"></p></body>`. -/
def exampleDocument : Node :=
  .element "body" "" []
    [.text "intro", .element "p" "foo" [("color", "red")] [.text "hi"], .element "p" "bar" [] []]

/-- A page whose target already has an inline border colour for one side:
    `<body><p id="foo" style="border-top-color: blue">hi</p></body>`. -/
def exampleDocumentWithBorderColor : Node :=
  .element "body" "" [] [.element "p" "foo" [("borderTopColor", "blue")] [.text "hi"]]

/-- The same page before the element `foo` has been rendered. -/
def exampleDocumentWithoutFoo : Node :=
  .element "body" "" [] [.text "intro", .element "p" "bar" [] []]

/-! ## Inline style lemmas -/

theorem Style.get_put_same (s : Style) (p v : String) : (Style.put s p v).get p = some v := by
  induction s with
  | nil => simp [Style.put, Style.get]
  | cons kv rest ih =>
    obtain ⟨k, w⟩ := kv
    by_cases h : k = p
    · simp [Style.put, Style.get, h]
    · simp [Style.put, Style.get, h, ih]

theorem Style.get_put_ne (s : Style) (p v q : String) (hq : q ≠ p) :
    (Style.put s p v).get q = s.get q := by
  induction s with
  | nil => simp [Style.put, Style.get, Ne.symm hq]
  | cons kv rest ih =>
    obtain ⟨k, w⟩ := kv
    by_cases h : k = p
    · subst h
      simp [Style.put, Style.get, Ne.symm hq]
    · simp [Style.put, Style.get, h, ih]

theorem Style.put_eq_self (s : Style) (p v : String) (h : s.get p = some v) :
    Style.put s p v = s := by
  induction s with
  | nil => simp [Style.get] at h
  | cons kv rest ih =>
    obtain ⟨k, w⟩ := kv
    by_cases hk : k = p
    · simp [Style.get, hk] at h
      simp [Style.put, hk, h]
    · simp [Style.get, hk] at h
      simp [Style.put, hk, ih h]

theorem Style.get_drop_of_not_mem (names : List String) (s : Style) (q : String)
    (hq : q ∉ names) : (Style.drop names s).get q = s.get q := by
  induction s with
  | nil => simp [Style.drop]
  | cons kv rest ih =>
    obtain ⟨k, w⟩ := kv
    by_cases hk : k ∈ names
    · have hkq : k ≠ q := fun h => hq (h ▸ hk)
      simp [Style.drop, Style.get, hk, hkq, ih]
    · simp [Style.drop, Style.get, hk, ih]

theorem Style.get_drop_of_mem (names : List String) (s : Style) (q : String)
    (hq : q ∈ names) : (Style.drop names s).get q = none := by
  induction s with
  | nil => simp [Style.drop, Style.get]
  | cons kv rest ih =>
    obtain ⟨k, w⟩ := kv
    by_cases hk : k ∈ names
    · simp [Style.drop, hk, ih]
    · have hkq : k ≠ q := fun h => hk (h ▸ hq)
      simp [Style.drop, Style.get, hk, hkq, ih]

theorem Style.drop_eq_self (names : List String) (s : Style)
    (h : ∀ k ∈ names, s.get k = none) : Style.drop names s = s := by
  induction s with
  | nil => simp [Style.drop]
  | cons kv rest ih =>
    obtain ⟨k, w⟩ := kv
    have hk : k ∉ names := by
      intro hk
      have := h k hk
      simp [Style.get] at this
    have hrest : ∀ k' ∈ names, Style.get rest k' = none := by
      intro k' hk'
      have hne : k ≠ k' := fun e => hk (e ▸ hk')
      have := h k' hk'
      simpa [Style.get, hne] using this
    simp [Style.drop, hk, ih hrest]

/-- The assigned property reads back as the assigned string. -/
theorem Style.get_set_same (s : Style) (p v : String) : (Style.set s p v).get p = some v :=
  Style.get_put_same _ p v

/-- A property the assignment does not supersede keeps its value. -/
theorem Style.get_set_ne (s : Style) (p v q : String) (hq : q ≠ p)
    (hs : q ∉ superseded p) : (Style.set s p v).get q = s.get q := by
  unfold Style.set
  rw [Style.get_put_ne _ p v q hq, Style.get_drop_of_not_mem _ s q hs]

/-- A property the assignment supersedes loses its declaration. -/
theorem Style.get_set_superseded (s : Style) (p v q : String) (hq : q ≠ p)
    (hs : q ∈ superseded p) : (Style.set s p v).get q = none := by
  unfold Style.set
  rw [Style.get_put_ne _ p v q hq, Style.get_drop_of_mem _ s q hs]

/-- An assignment never brings back a declaration of another property. -/
theorem Style.get_set_none (s : Style) (p v q : String) (hq : q ≠ p)
    (h : s.get q = none) : (Style.set s p v).get q = none := by
  by_cases hs : q ∈ superseded p
  · exact Style.get_set_superseded s p v q hq hs
  · rw [Style.get_set_ne s p v q hq hs, h]

theorem Style.set_eq_self (s : Style) (p v : String) (h : s.get p = some v)
    (hs : ∀ k ∈ superseded p, s.get k = none) : Style.set s p v = s := by
  unfold Style.set
  rw [Style.drop_eq_self _ s hs, Style.put_eq_self s p v h]

/-! ## Paths: dereferencing, replacing, mutating -/

theorem Node.modify_eq_replace (f : Node → Except JSError Node) :
    ∀ (p : Path) (d n n' : Node), d.get? p = some n → f n = .ok n' →
      d.modify p f = .ok (d.replace p n') := by
  intro p
  induction p with
  | nil =>
    intro d n n' hg hf
    simp [Node.get?] at hg
    subst hg
    simp [Node.modify, Node.replace, hf]
  | cons k p ih =>
    intro d n n' hg hf
    cases d with
    | text data => simp [Node.get?] at hg
    | element t i s cs =>
      simp only [Node.get?] at hg
      cases hc : cs[k]? with
      | none => simp [hc] at hg
      | some c =>
        simp only [hc] at hg
        simp only [Node.modify, Node.replace, hc, ih c n n' hg hf]

theorem Node.get?_replace_same :
    ∀ (p : Path) (d n n' : Node), d.get? p = some n → (d.replace p n').get? p = some n' := by
  intro p
  induction p with
  | nil => intro d n n' _; simp [Node.get?, Node.replace]
  | cons k p ih =>
    intro d n n' hg
    cases d with
    | text data => simp [Node.get?] at hg
    | element t i s cs =>
      simp only [Node.get?] at hg
      cases hc : cs[k]? with
      | none => simp [hc] at hg
      | some c =>
        simp only [hc] at hg
        have hk : k < cs.length := by
          rcases List.getElem?_eq_some_iff.mp hc with ⟨h, _⟩
          exact h
        simp only [Node.replace, hc, Node.get?, List.getElem?_set_self hk]
        exact ih c n n' hg

theorem Node.replace_replace :
    ∀ (p : Path) (d a b : Node), (d.replace p a).replace p b = d.replace p b := by
  intro p
  induction p with
  | nil => intro d a b; simp [Node.replace]
  | cons k p ih =>
    intro d a b
    cases d with
    | text data => simp [Node.replace]
    | element t i s cs =>
      cases hc : cs[k]? with
      | none => simp [Node.replace, hc]
      | some c =>
        have hk : k < cs.length := by
          rcases List.getElem?_eq_some_iff.mp hc with ⟨h, _⟩
          exact h
        simp only [Node.replace, hc, List.getElem?_set_self hk, List.set_set, ih]


theorem set_of_getElem? {α : Type} :
    ∀ (cs : List α) (k : Nat) (c : α), cs[k]? = some c → cs.set k c = cs := by
  intro cs
  induction cs with
  | nil => intro k c h; simp at h
  | cons a cs ih =>
    intro k c h
    cases k with
    | zero => simp at h; simp [h]
    | succ k => simp at h; simp [ih k c h]

theorem Node.replace_self :
    ∀ (p : Path) (d n : Node), d.get? p = some n → d.replace p n = d := by
  intro p
  induction p with
  | nil => intro d n h; simp [Node.get?] at h; simp [Node.replace, h]
  | cons k p ih =>
    intro d n hg
    cases d with
    | text data => simp [Node.get?] at hg
    | element t i s cs =>
      simp only [Node.get?] at hg
      cases hc : cs[k]? with
      | none => simp [hc] at hg
      | some c =>
        simp only [hc] at hg
        simp only [Node.replace, hc, ih c n hg, set_of_getElem? cs k c hc]

/-! ## Element lookup -/

theorem findList_eq_some (v : String) :
    ∀ (cs : List Node) (i : Nat) (q : Path),
      findList v i cs = some q ↔
        ∃ j c p, q = (i + j) :: p ∧ cs[j]? = some c ∧ findNode v c = some p ∧
          ∀ k, k < j → ∀ c', cs[k]? = some c' → findNode v c' = none := by
  intro cs
  induction cs with
  | nil => intro i q; simp [findList]
  | cons c cs ih =>
    intro i q
    cases hc : findNode v c with
    | some p =>
      simp only [findList, hc]
      constructor
      · intro h
        refine ⟨0, c, p, ?_, by simp, hc, ?_⟩
        · simpa using h.symm
        · intro k hk; omega
      · rintro ⟨j, c', p', hq, hj, hf, hbefore⟩
        cases j with
        | zero =>
          simp at hj
          subst hj
          rw [hc] at hf
          simp at hf
          subst hf
          simpa using hq.symm
        | succ j =>
          have := hbefore 0 (by omega) c (by simp)
          rw [hc] at this
          simp at this
    | none =>
      simp only [findList, hc]
      rw [ih (i + 1) q]
      constructor
      · rintro ⟨j, c', p', hq, hj, hf, hbefore⟩
        refine ⟨j + 1, c', p', ?_, by simpa using hj, hf, ?_⟩
        · rw [hq]; congr 1; omega
        · intro k hk c'' hk'
          cases k with
          | zero => simp at hk'; subst hk'; exact hc
          | succ k => exact hbefore k (by omega) c'' (by simpa using hk')
      · rintro ⟨j, c', p', hq, hj, hf, hbefore⟩
        cases j with
        | zero =>
          simp at hj
          subst hj
          rw [hc] at hf
          simp at hf
        | succ j =>
          refine ⟨j, c', p', ?_, by simpa using hj, hf, ?_⟩
          · rw [hq]; congr 1; omega
          · intro k hk c'' hk'
            exact hbefore (k + 1) (by omega) c'' (by simpa using hk')

theorem findList_eq_none (v : String) :
    ∀ (cs : List Node) (i : Nat),
      findList v i cs = none ↔ ∀ (k : Nat) (c : Node), cs[k]? = some c → findNode v c = none := by
  intro cs
  induction cs with
  | nil => intro i; simp [findList]
  | cons c cs ih =>
    intro i
    cases hc : findNode v c with
    | some p =>
      simp only [findList, hc]
      constructor
      · intro h; simp at h
      · intro h
        have := h 0 c (by simp)
        rw [hc] at this
        simp at this
    | none =>
      simp only [findList, hc]
      rw [ih (i + 1)]
      constructor
      · intro h k c' hk
        cases k with
        | zero => simp at hk; subst hk; exact hc
        | succ k => exact h k c' (by simpa using hk)
      · intro h k c' hk
        exact h (k + 1) c' (by simpa using hk)

/-- A successful lookup points at an element whose id is the one looked up. -/
theorem findNode_sound (v : String) :
    ∀ (p : Path) (n : Node), findNode v n = some p →
      ∃ t s cs, n.get? p = some (.element t v s cs) := by
  intro p
  induction p with
  | nil =>
    intro n h
    cases n with
    | text d => simp [findNode] at h
    | element t i s cs =>
      by_cases hi : i = v
      · subst hi
        exact ⟨t, s, cs, by simp [Node.get?]⟩
      · simp only [findNode, hi, if_false] at h
        rcases (findList_eq_some v cs 0 []).mp h with ⟨j, c, p, hq, _⟩
        simp at hq
  | cons k p ih =>
    intro n h
    cases n with
    | text d => simp [findNode] at h
    | element t i s cs =>
      by_cases hi : i = v
      · simp [findNode, hi] at h
      · simp only [findNode, hi, if_false] at h
        rcases (findList_eq_some v cs 0 (k :: p)).mp h with ⟨j, c, p', hq, hj, hf, _⟩
        simp at hq
        obtain ⟨hk, hp⟩ := hq
        subst hk; subst hp
        simp only [Node.get?, hj]
        exact ih c hf

/-- Whenever some element of the tree has id `v`, the lookup succeeds. -/
theorem findNode_complete (v : String) :
    ∀ (q : Path) (n : Node) (t : String) (s : Style) (cs : List Node),
      n.get? q = some (.element t v s cs) → findNode v n ≠ none := by
  intro q
  induction q with
  | nil =>
    intro n t s cs h
    simp [Node.get?] at h
    subst h
    simp [findNode]
  | cons k q ih =>
    intro n t s cs h
    cases n with
    | text d => simp [Node.get?] at h
    | element t0 i0 s0 cs0 =>
      simp only [Node.get?] at h
      cases hc : cs0[k]? with
      | none => simp [hc] at h
      | some c =>
        simp only [hc] at h
        have hcf := ih c t s cs h
        by_cases hi : i0 = v
        · simp [findNode, hi]
        · simp only [findNode, hi, if_false]
          intro hnone
          exact hcf ((findList_eq_none v cs0 0).mp hnone k c hc)

/-- Replacing the found element by an element with the same id does not change
    what the lookup finds. -/
theorem findNode_replace (v : String) (e : Node) (he : findNode v e = some []) :
    ∀ (p : Path) (n : Node), findNode v n = some p →
      findNode v (n.replace p e) = some p := by
  intro p
  induction p with
  | nil => intro n _; simpa [Node.replace] using he
  | cons k p ih =>
    intro n h
    cases n with
    | text d => simp [findNode] at h
    | element t i s cs =>
      by_cases hi : i = v
      · simp [findNode, hi] at h
      · simp only [findNode, hi, if_false] at h
        rcases (findList_eq_some v cs 0 (k :: p)).mp h with ⟨j, c, p', hq, hj, hf, hbefore⟩
        simp at hq
        obtain ⟨hk, hp⟩ := hq
        subst hk; subst hp
        have hlt : k < cs.length := by
          rcases List.getElem?_eq_some_iff.mp hj with ⟨h, _⟩
          exact h
        simp only [Node.replace, hj, findNode, hi, if_false]
        rw [findList_eq_some]
        refine ⟨k, c.replace p e, p, by simp, ?_, ih c hf, ?_⟩
        · exact List.getElem?_set_self hlt
        · intro m hm c' hm'
          rw [List.getElem?_set_ne (by omega)] at hm'
          exact hbefore m hm c' hm'

/-! ## The timer callback, step by step -/

theorem styleBadge_createElement (w : Window) :
    styleBadge (w.createElement "div").2 = .ok badge := by
  rfl

theorem Window.setStyle_eq (w : Window) (el : Path) (p v t i : String) (s : Style)
    (cs : List Node) (h : w.document.get? el = some (.element t i s cs)) :
    w.setStyle el p v =
      .ok { w with document := w.document.replace el (.element t i (Style.set s p v) cs) } := by
  unfold Window.setStyle
  rw [Node.modify_eq_replace _ el w.document _ (.element t i (Style.set s p v) cs) h rfl]

theorem Window.appendChild_eq (w : Window) (el : Path) (child : Node) (t i : String)
    (s : Style) (cs : List Node) (h : w.document.get? el = some (.element t i s cs)) :
    w.appendChild el child =
      .ok { w with document := w.document.replace el (.element t i s (cs ++ [child])) } := by
  unfold Window.appendChild
  rw [Node.modify_eq_replace _ el w.document _ (.element t i s (cs ++ [child])) h rfl]

/-- The success branch in closed form. -/
theorem timerCallback_found (v : String) (w : Window) (p : Path) (t i : String) (s : Style)
    (cs : List Node) (hf : getElementById w.document v = some p)
    (hg : w.document.get? p = some (.element t i s cs)) :
    timerCallback v w = .ok
      { w with
        document := w.document.replace p (highlighted t i s cs)
        scrollCalls := w.scrollCalls ++ [⟨p, ⟨"smooth", "center"⟩⟩]
        created := w.created + 1 } := by
  unfold timerCallback
  rw [hf]
  simp only [bind, Except.bind]
  rw [Window.setStyle_eq w p _ _ t i s cs hg]
  simp only []
  rw [Window.setStyle_eq _ p _ _ t i _ cs (Node.get?_replace_same p _ _ _ hg)]
  simp only [Node.replace_replace]
  rw [Window.setStyle_eq _ p _ _ t i _ cs (Node.get?_replace_same p _ _ _ hg)]
  simp only [Node.replace_replace]
  rw [Window.setStyle_eq _ p _ _ t i _ cs (Node.get?_replace_same p _ _ _ hg)]
  simp only [Node.replace_replace]
  rw [Window.setStyle_eq _ p _ _ t i _ cs (Node.get?_replace_same p _ _ _ hg)]
  simp only [Node.replace_replace, styleBadge_createElement]
  rw [Window.appendChild_eq _ p _ t i _ cs
    (by simpa [Window.createElement] using Node.get?_replace_same p _ _ _ hg)]
  simp only [Window.createElement, Node.replace_replace, Window.scrollIntoView,
    Node.get?_replace_same p _ _ _ hg]
  rfl

/-- The not-found branch. -/
theorem timerCallback_not_found (v : String) (w : Window)
    (hf : getElementById w.document v = none) : timerCallback v w = .ok w := by
  unfold timerCallback
  rw [hf]

/-! ## The handler and page loads -/

theorem handler_noop (parse : String → URLSearchParams) (w : Window)
    (h : URLSearchParams.get (parse w.search) "highlight" = none ∨
      URLSearchParams.get (parse w.search) "highlight" = some "") :
    handler parse w = w := by
  unfold handler
  rcases h with h | h <;> simp [h]

theorem handler_schedules (parse : String → URLSearchParams) (w : Window) (v : String)
    (h : URLSearchParams.get (parse w.search) "highlight" = some v) (hv : v ≠ "") :
    handler parse w = { w with timers := w.timers ++ [⟨100, v⟩] } := by
  unfold handler
  simp [h, hv, Window.setTimeout]

theorem dispatch_noop (parse : String → URLSearchParams) (n : Nat) (w : Window)
    (h : URLSearchParams.get (parse w.search) "highlight" = none ∨
      URLSearchParams.get (parse w.search) "highlight" = some "") :
    dispatch parse n w = w := by
  induction n with
  | zero => rfl
  | succ n ih => simp only [dispatch, handler_noop parse w h, ih]

theorem dispatch_schedules (parse : String → URLSearchParams) (v : String) (hv : v ≠ "") :
    ∀ (n : Nat) (w : Window), URLSearchParams.get (parse w.search) "highlight" = some v →
      dispatch parse n w = { w with timers := w.timers ++ List.replicate n ⟨100, v⟩ } := by
  intro n
  induction n with
  | zero => intro w _; simp [dispatch]
  | succ n ih =>
    intro w h
    simp only [dispatch, handler_schedules parse w v h hv]
    rw [ih _ (by simpa using h)]
    simp [List.replicate_succ]

theorem highlightStyle_get_border (s : Style) :
    (highlightStyle s).get "border" = some "4px solid #ef4444" := by
  unfold highlightStyle
  rw [Style.get_set_ne _ _ _ _ (by decide) (by decide),
    Style.get_set_ne _ _ _ _ (by decide) (by decide),
    Style.get_set_ne _ _ _ _ (by decide) (by decide),
    Style.get_set_ne _ _ _ _ (by decide) (by decide), Style.get_set_same]

theorem highlightStyle_get_boxShadow (s : Style) :
    (highlightStyle s).get "boxShadow" = some "0 0 20px rgba(239, 68, 68, 0.6)" := by
  unfold highlightStyle
  rw [Style.get_set_ne _ _ _ _ (by decide) (by decide),
    Style.get_set_ne _ _ _ _ (by decide) (by decide),
    Style.get_set_ne _ _ _ _ (by decide) (by decide), Style.get_set_same]

theorem highlightStyle_get_transition (s : Style) :
    (highlightStyle s).get "transition" = some "all 0.5s ease-in-out" := by
  unfold highlightStyle
  rw [Style.get_set_ne _ _ _ _ (by decide) (by decide),
    Style.get_set_ne _ _ _ _ (by decide) (by decide), Style.get_set_same]

theorem highlightStyle_get_position (s : Style) :
    (highlightStyle s).get "position" = some "relative" := by
  unfold highlightStyle
  rw [Style.get_set_ne _ _ _ _ (by decide) (by decide), Style.get_set_same]

theorem highlightStyle_get_zIndex (s : Style) :
    (highlightStyle s).get "zIndex" = some "50" := by
  unfold highlightStyle
  rw [Style.get_set_same]

/-- The names the five assignments write are not among the names they supersede. -/
theorem superseded_not_written :
    ∀ k ∈ superseded "border" ++ superseded "transition",
      k ≠ "border" ∧ k ≠ "boxShadow" ∧ k ≠ "transition" ∧ k ≠ "position" ∧ k ≠ "zIndex" := by
  decide

/-- A property that none of the five assignments writes or supersedes keeps its value. -/
theorem highlightStyle_get_other (s : Style) (k : String) (h1 : k ≠ "border")
    (h2 : k ≠ "boxShadow") (h3 : k ≠ "transition") (h4 : k ≠ "position") (h5 : k ≠ "zIndex")
    (hb : k ∉ superseded "border") (ht : k ∉ superseded "transition") :
    (highlightStyle s).get k = s.get k := by
  have hall : k ∉ ["all"] := by
    intro h
    have hk : k = "all" := by simpa using h
    subst hk
    exact hb (by decide)
  unfold highlightStyle
  rw [Style.get_set_ne _ _ _ _ h5 hall, Style.get_set_ne _ _ _ _ h4 hall,
    Style.get_set_ne _ _ _ _ h3 ht, Style.get_set_ne _ _ _ _ h2 hall,
    Style.get_set_ne _ _ _ _ h1 hb]

/-- A property that the assignment to `border` or to `transition` supersedes has no
    declaration of its own afterwards. -/
theorem highlightStyle_get_superseded (s : Style) (k : String)
    (hk : k ∈ superseded "border" ∨ k ∈ superseded "transition") :
    (highlightStyle s).get k = none := by
  have hne := superseded_not_written k (by
    rcases hk with hk | hk
    · exact List.mem_append_left _ hk
    · exact List.mem_append_right _ hk)
  obtain ⟨h1, h2, h3, h4, h5⟩ := hne
  unfold highlightStyle
  apply Style.get_set_none _ _ _ _ h5
  apply Style.get_set_none _ _ _ _ h4
  rcases hk with hk | hk
  · apply Style.get_set_none _ _ _ _ h3
    apply Style.get_set_none _ _ _ _ h2
    exact Style.get_set_superseded _ _ _ _ h1 hk
  · exact Style.get_set_superseded _ _ _ _ h3 hk

theorem highlightStyle_fixed (x : Style) (h1 : x.get "border" = some "4px solid #ef4444")
    (h2 : x.get "boxShadow" = some "0 0 20px rgba(239, 68, 68, 0.6)")
    (h3 : x.get "transition" = some "all 0.5s ease-in-out")
    (h4 : x.get "position" = some "relative") (h5 : x.get "zIndex" = some "50")
    (hb : ∀ k ∈ superseded "border", x.get k = none)
    (ht : ∀ k ∈ superseded "transition", x.get k = none) :
    highlightStyle x = x := by
  have hall : ∀ k ∈ ["all"], x.get k = none := by
    intro k hk
    exact hb k (by
      have : k = "all" := by simpa using hk
      subst this
      decide)
  unfold highlightStyle
  rw [Style.set_eq_self x _ _ h1 hb, Style.set_eq_self x _ _ h2 hall,
    Style.set_eq_self x _ _ h3 ht, Style.set_eq_self x _ _ h4 hall,
    Style.set_eq_self x _ _ h5 hall]

theorem highlightStyle_idem (s : Style) : highlightStyle (highlightStyle s) = highlightStyle s :=
  highlightStyle_fixed _ (highlightStyle_get_border s) (highlightStyle_get_boxShadow s)
    (highlightStyle_get_transition s) (highlightStyle_get_position s)
    (highlightStyle_get_zIndex s)
    (fun k hk => highlightStyle_get_superseded s k (Or.inl hk))
    (fun k hk => highlightStyle_get_superseded s k (Or.inr hk))

theorem highlightStyle_iterate (s : Style) (n : Nat) :
    highlightStyle^[n + 1] s = highlightStyle s := by
  induction n with
  | zero => rfl
  | succ n ih =>
    rw [Function.iterate_succ_apply', ih, highlightStyle_idem]

theorem getElementById_eq_some (d : Node) (v : String) (p : Path)
    (h : getElementById d v = some p) : v ≠ "" ∧ findNode v d = some p := by
  unfold getElementById at h
  by_cases hv : v = ""
  · simp [hv] at h
  · simp only [hv, if_false] at h
    exact ⟨hv, h⟩

/-- What the lookup returns is an element of the document whose id is the one asked for. -/
theorem getElementById_sound (d : Node) (v : String) (p : Path)
    (h : getElementById d v = some p) : ∃ t s cs, d.get? p = some (.element t v s cs) :=
  findNode_sound v p d (getElementById_eq_some d v p h).2

/-- If some element of the document has the non-empty id `v`, the lookup resolves. -/
theorem getElementById_complete (d : Node) (v : String) (hv : v ≠ "") (q : Path) (t : String)
    (s : Style) (cs : List Node) (h : d.get? q = some (.element t v s cs)) :
    ∃ p, getElementById d v = some p := by
  unfold getElementById
  simp only [hv, if_false]
  have := findNode_complete v q d t s cs h
  cases hf : findNode v d with
  | none => exact absurd hf this
  | some p => exact ⟨p, rfl⟩

/-- After the success branch the same element is still the one the lookup finds. -/
theorem getElementById_replace (d : Node) (v : String) (p : Path) (t : String) (s : Style)
    (cs : List Node) (h : getElementById d v = some p) :
    getElementById (d.replace p (.element t v s cs)) v = some p := by
  obtain ⟨hv, hf⟩ := getElementById_eq_some d v p h
  unfold getElementById
  simp only [hv, if_false]
  exact findNode_replace v _ (by simp [findNode]) p d hf

/-- Firing `n` pending timers of the script on a document in which the target resolves. -/
theorem runTimers_replicate (v : String) (delay : Nat) :
    ∀ (n : Nat) (w : Window) (p : Path) (t : String) (s : Style) (cs : List Node),
      getElementById w.document v = some p →
      w.document.get? p = some (.element t v s cs) →
      runTimers (List.replicate n ⟨delay, v⟩) w = .ok
        { w with
          document := w.document.replace p
            (.element t v (highlightStyle^[n] s) (cs ++ List.replicate n badge))
          scrollCalls := w.scrollCalls ++ List.replicate n ⟨p, ⟨"smooth", "center"⟩⟩
          created := w.created + n } := by
  intro n
  induction n with
  | zero =>
    intro w p t s cs _ hg
    have : w.document.replace p (.element t v s cs) = w.document :=
      Node.replace_self p w.document _ hg
    simp [runTimers, this]
  | succ n ih =>
    intro w p t s cs hf hg
    simp only [List.replicate_succ, runTimers, timerCallback_found v w p t v s cs hf hg]
    rw [ih _ p t (highlightStyle s) (cs ++ [badge])
      (by simpa [highlighted] using getElementById_replace w.document v p t _ _ hf)
      (by simpa [highlighted] using Node.get?_replace_same p w.document _ _ hg)]
    simp [Node.replace_replace, Function.iterate_succ_apply, List.replicate_succ, Nat.add_assoc,
      Nat.add_comm 1 n]

theorem runTimers_not_found (v : String) (delay : Nat) (w : Window)
    (h : getElementById w.document v = none) :
    ∀ n : Nat, runTimers (List.replicate n ⟨delay, v⟩) w = .ok w := by
  intro n
  induction n with
  | zero => rfl
  | succ n ih => simp only [List.replicate_succ, runTimers, timerCallback_not_found v w h, ih]

theorem pageLoadN_noop (parse : String → URLSearchParams) (n : Nat) (search : String)
    (atLoad atFire : Node)
    (h : URLSearchParams.get (parse search) "highlight" = none ∨
      URLSearchParams.get (parse search) "highlight" = some "") :
    pageLoadN parse n search atLoad atFire = .ok (initialWindow search atFire) := by
  unfold pageLoadN
  rw [dispatch_noop parse n (initialWindow search atLoad) h]
  rfl

theorem pageLoadN_not_found (parse : String → URLSearchParams) (n : Nat) (search : String)
    (atLoad atFire : Node) (v : String)
    (h : URLSearchParams.get (parse search) "highlight" = some v) (hv : v ≠ "")
    (hf : getElementById atFire v = none) :
    pageLoadN parse n search atLoad atFire = .ok (initialWindow search atFire) := by
  unfold pageLoadN
  rw [dispatch_schedules parse v hv n (initialWindow search atLoad) h]
  simp only [initialWindow, List.nil_append]
  rw [runTimers_not_found v 100 _ hf n]

theorem pageLoadN_found (parse : String → URLSearchParams) (n : Nat) (search : String)
    (atLoad atFire : Node) (v : String) (p : Path) (t : String) (s : Style) (cs : List Node)
    (h : URLSearchParams.get (parse search) "highlight" = some v) (hv : v ≠ "")
    (hf : getElementById atFire v = some p)
    (hg : atFire.get? p = some (.element t v s cs)) :
    pageLoadN parse n search atLoad atFire = .ok
      { search := search
        document := atFire.replace p
          (.element t v (highlightStyle^[n] s) (cs ++ List.replicate n badge))
        timers := []
        scrollCalls := List.replicate n ⟨p, ⟨"smooth", "center"⟩⟩
        created := n } := by
  unfold pageLoadN
  rw [dispatch_schedules parse v hv n (initialWindow search atLoad) h]
  simp only [initialWindow, List.nil_append]
  rw [runTimers_replicate v 100 n _ p t s cs hf hg]
  simp

theorem pageLoad_found (parse : String → URLSearchParams) (search : String)
    (atLoad atFire : Node) (v : String) (p : Path) (t : String) (s : Style) (cs : List Node)
    (h : URLSearchParams.get (parse search) "highlight" = some v) (hv : v ≠ "")
    (hf : getElementById atFire v = some p)
    (hg : atFire.get? p = some (.element t v s cs)) :
    pageLoad parse search atLoad atFire = .ok
      { search := search
        document := atFire.replace p (highlighted t v s cs)
        timers := []
        scrollCalls := [⟨p, ⟨"smooth", "center"⟩⟩]
        created := 1 } := by
  unfold pageLoad
  rw [pageLoadN_found parse 1 search atLoad atFire v p t s cs h hv hf hg]
  rfl

/-! ## Frame lemmas for `replace` -/

theorem Node.get?_append :
    ∀ (p r : Path) (d : Node), d.get? (p ++ r) = (d.get? p).bind (fun n => n.get? r) := by
  intro p
  induction p with
  | nil => intro r d; simp [Node.get?]
  | cons k p ih =>
    intro r d
    cases d with
    | text data => simp [Node.get?]
    | element t i s cs =>
      simp only [List.cons_append, Node.get?]
      cases hc : cs[k]? with
      | none => simp
      | some c => exact ih r c

/-- Outside the subtree of the replaced node every node keeps its own properties. -/
theorem Node.info_get?_replace :
    ∀ (p : Path) (d n e : Node) (q : Path), d.get? p = some n → ¬ p <+: q →
      ((d.replace p e).get? q).map Node.info = (d.get? q).map Node.info := by
  intro p
  induction p with
  | nil => intro d n e q _ hq; exact absurd List.nil_prefix hq
  | cons k p ih =>
    intro d n e q hg hq
    cases d with
    | text data => simp [Node.get?] at hg
    | element t i s cs =>
      simp only [Node.get?] at hg
      cases hc : cs[k]? with
      | none => simp [hc] at hg
      | some c =>
        simp only [hc] at hg
        have hk : k < cs.length := by
          rcases List.getElem?_eq_some_iff.mp hc with ⟨h, _⟩
          exact h
        cases q with
        | nil => simp [Node.replace, hc, Node.get?, Node.info]
        | cons j q =>
          by_cases hjk : j = k
          · subst hjk
            have hq' : ¬ p <+: q := by
              intro hpq
              exact hq ((List.prefix_cons_inj j).mpr hpq)
            simp only [Node.replace, hc, Node.get?, List.getElem?_set_self hk]
            exact ih c n e q hg hq'
          · simp only [Node.replace, hc, Node.get?, List.getElem?_set_ne (Ne.symm hjk)]

/-! ## The claims -/

/-- C1: for a non-empty highlight value `v` and a document in which an element with id `v`
    exists when the timer fires, the page load succeeds and leaves the element the lookup
    resolves to with border "4px solid #ef4444", boxShadow "0 0 20px rgba(239, 68, 68, 0.6)",
    transition "all 0.5s ease-in-out", position "relative" and zIndex "50", and with exactly
    one more child, the new last child being a div whose text content is "실험 대상 (Target)". -/
theorem C1_success_highlights_target (parse : String → URLSearchParams) (search : String)
    (atLoad atFire : Node) (v : String) (q : Path) (t0 : String) (s0 : Style)
    (cs0 : List Node)
    (hq : URLSearchParams.get (parse search) "highlight" = some v) (hv : v ≠ "")
    (hex : atFire.get? q = some (.element t0 v s0 cs0)) :
    ∃ (p : Path) (t : String) (s : Style) (cs : List Node) (w' : Window) (s' : Style)
      (b : Node),
      getElementById atFire v = some p ∧
      atFire.get? p = some (.element t v s cs) ∧
      pageLoad parse search atLoad atFire = .ok w' ∧
      w'.document.get? p = some (.element t v s' (cs ++ [b])) ∧
      s'.get "border" = some "4px solid #ef4444" ∧
      s'.get "boxShadow" = some "0 0 20px rgba(239, 68, 68, 0.6)" ∧
      s'.get "transition" = some "all 0.5s ease-in-out" ∧
      s'.get "position" = some "relative" ∧
      s'.get "zIndex" = some "50" ∧
      (cs ++ [b]).length = cs.length + 1 ∧
      b.tag? = some "div" ∧
      b.textContent = "실험 대상 (Target)" := by
  obtain ⟨p, hf⟩ := getElementById_complete atFire v hv q t0 s0 cs0 hex
  obtain ⟨t, s, cs, hg⟩ := getElementById_sound atFire v p hf
  refine ⟨p, t, s, cs, _, highlightStyle s, badge, hf, hg,
    pageLoad_found parse search atLoad atFire v p t s cs hq hv hf hg, ?_,
    highlightStyle_get_border s, highlightStyle_get_boxShadow s,
    highlightStyle_get_transition s, highlightStyle_get_position s,
    highlightStyle_get_zIndex s, by simp, rfl, by decide⟩
  exact Node.get?_replace_same p atFire _ _ hg

/-- C2: when the query has no `highlight` key, or its value is the empty string, the handler
    returns the window exactly as it was: same document, same pending timers (none is
    scheduled), same scroll log, no node created; and after the whole page load the
    document is untouched. -/
theorem C2_absent_or_empty_is_noop (parse : String → URLSearchParams) (w : Window)
    (h : URLSearchParams.get (parse w.search) "highlight" = none ∨
      URLSearchParams.get (parse w.search) "highlight" = some "") :
    handler parse w = w ∧
    (handler parse w).document = w.document ∧
    (handler parse w).timers = w.timers ∧
    (handler parse w).created = w.created ∧
    (handler parse w).scrollCalls = w.scrollCalls ∧
    ∀ atLoad atFire : Node,
      pageLoad parse w.search atLoad atFire = .ok (initialWindow w.search atFire) := by
  have hw := handler_noop parse w h
  refine ⟨hw, by rw [hw], by rw [hw], by rw [hw], by rw [hw], ?_⟩
  intro atLoad atFire
  exact pageLoadN_noop parse 1 w.search atLoad atFire h

/-- C3: for a non-empty highlight value `v`, when no element of the document has id `v` at
    the time the timer fires, the handler leaves the document as it was, the timer
    continuation returns the window unchanged without an error, and the whole page load
    ends without error with the document untouched, nothing created and nothing scrolled. -/
theorem C3_unresolved_is_noop (parse : String → URLSearchParams) (search : String)
    (atLoad atFire : Node) (v : String)
    (hq : URLSearchParams.get (parse search) "highlight" = some v) (hv : v ≠ "")
    (hno : ∀ (q : Path) (t : String) (s : Style) (cs : List Node),
      atFire.get? q ≠ some (.element t v s cs)) :
    (handler parse (initialWindow search atLoad)).document = atLoad ∧
    (∀ w : Window, w.document = atFire → timerCallback v w = .ok w) ∧
    pageLoad parse search atLoad atFire = .ok (initialWindow search atFire) := by
  have hnone : getElementById atFire v = none := by
    cases hf : getElementById atFire v with
    | none => rfl
    | some p =>
      obtain ⟨t, s, cs, hg⟩ := getElementById_sound atFire v p hf
      exact absurd hg (hno p t s cs)
  refine ⟨?_, ?_, pageLoadN_not_found parse 1 search atLoad atFire v hq hv hnone⟩
  · rw [handler_schedules parse (initialWindow search atLoad) v hq hv]
    rfl
  · intro w hw
    exact timerCallback_not_found v w (by rw [hw]; exact hnone)

/-- C4: every page load ends without error, and `scrollIntoView` is invoked if and only if
    the highlight value is non-empty and the lookup resolves an element; then the scroll log
    holds exactly one call, on the resolved target, with behavior "smooth" and block
    "center"; on the no-op paths (missing or empty parameter, unresolved id) the log is
    empty. -/
theorem C4_scroll_only_on_success (parse : String → URLSearchParams) (search : String)
    (atLoad atFire : Node) :
    ∃ w' : Window, pageLoad parse search atLoad atFire = .ok w' ∧
      (w'.scrollCalls ≠ [] ↔
        ∃ (v : String) (p : Path), URLSearchParams.get (parse search) "highlight" = some v ∧
          v ≠ "" ∧ getElementById atFire v = some p) ∧
      (∀ (v : String) (p : Path), URLSearchParams.get (parse search) "highlight" = some v →
        v ≠ "" → getElementById atFire v = some p →
        w'.scrollCalls = [⟨p, ⟨"smooth", "center"⟩⟩]) ∧
      (URLSearchParams.get (parse search) "highlight" = none → w'.scrollCalls = []) ∧
      (URLSearchParams.get (parse search) "highlight" = some "" → w'.scrollCalls = []) ∧
      (∀ v : String, URLSearchParams.get (parse search) "highlight" = some v →
        getElementById atFire v = none → w'.scrollCalls = []) := by
  cases hq : URLSearchParams.get (parse search) "highlight" with
  | none =>
    refine ⟨_, pageLoadN_noop parse 1 search atLoad atFire (Or.inl hq), ?_⟩
    simp [initialWindow]
  | some v =>
    by_cases hv : v = ""
    · subst hv
      refine ⟨_, pageLoadN_noop parse 1 search atLoad atFire (Or.inr hq), ?_⟩
      simp only [initialWindow]
      refine ⟨?_, ?_, ?_, ?_, ?_⟩
      · constructor
        · intro h; exact absurd rfl h
        · rintro ⟨v, p, h1, h2, _⟩
          exact absurd (Option.some.inj h1).symm h2
      · intro v p h1 h2 _
        exact absurd (Option.some.inj h1).symm h2
      · intro _; trivial
      · intro _; trivial
      · intro _ _ _; trivial
    · cases hf : getElementById atFire v with
      | none =>
        refine ⟨_, pageLoadN_not_found parse 1 search atLoad atFire v hq hv hf, ?_⟩
        simp only [initialWindow]
        refine ⟨?_, ?_, ?_, ?_, ?_⟩
        · constructor
          · intro h; exact absurd rfl h
          · rintro ⟨v', p, h1, _, h3⟩
            rw [← Option.some.inj h1, hf] at h3
            exact absurd h3 (by simp)
        · intro v' p h1 _ h3
          rw [← Option.some.inj h1, hf] at h3
          exact absurd h3 (by simp)
        · intro _; trivial
        · intro _; trivial
        · intro _ _ _; trivial
      | some p =>
        obtain ⟨t, s, cs, hg⟩ := getElementById_sound atFire v p hf
        refine ⟨_, pageLoad_found parse search atLoad atFire v p t s cs hq hv hf hg, ?_⟩
        refine ⟨?_, ?_, ?_, ?_, ?_⟩
        · constructor
          · intro _; exact ⟨v, p, rfl, hv, hf⟩
          · intro _; simp
        · intro v' p' h1 _ h3
          rw [← Option.some.inj h1, hf] at h3
          rw [Option.some.inj h3]
        · intro h; exact absurd h (by simp)
        · intro h; exact absurd (Option.some.inj h) hv
        · intro v' h1 h3
          rw [← Option.some.inj h1, hf] at h3
          exact absurd h3 (by simp)

/-- C5: the handler is not idempotent on the tree. When the target resolves, `n` runs of the
    handler and its timer continuation end without error and leave the target with its
    original children followed by `n` badges (so exactly `n` more children; two for
    `n = 2`), each badge with text "실험 대상 (Target)"; for `n ≥ 1` the target's inline
    style, and so each of the five style values, is the same as after one run. -/
theorem C5_repeated_runs_duplicate_badge (parse : String → URLSearchParams) (search : String)
    (atLoad atFire : Node) (v : String) (p : Path)
    (hq : URLSearchParams.get (parse search) "highlight" = some v) (hv : v ≠ "")
    (hf : getElementById atFire v = some p) :
    ∃ (t : String) (s : Style) (cs : List Node) (w1 : Window) (s1 : Style),
      atFire.get? p = some (.element t v s cs) ∧
      pageLoadN parse 1 search atLoad atFire = .ok w1 ∧
      w1.document.get? p = some (.element t v s1 (cs ++ [badge])) ∧
      badge.textContent = "실험 대상 (Target)" ∧
      (∃ w2 : Window, ∃ s2 : Style, pageLoadN parse 2 search atLoad atFire = .ok w2 ∧
        w2.document.get? p = some (.element t v s2 (cs ++ [badge, badge])) ∧
        (cs ++ [badge, badge]).length = cs.length + 2 ∧ s2 = s1) ∧
      ∀ n : Nat, ∃ (wn : Window) (sn : Style),
        pageLoadN parse n search atLoad atFire = .ok wn ∧
        wn.document.get? p = some (.element t v sn (cs ++ List.replicate n badge)) ∧
        (cs ++ List.replicate n badge).length = cs.length + n ∧
        (1 ≤ n → sn = s1 ∧
          sn.get "border" = s1.get "border" ∧ sn.get "boxShadow" = s1.get "boxShadow" ∧
          sn.get "transition" = s1.get "transition" ∧ sn.get "position" = s1.get "position" ∧
          sn.get "zIndex" = s1.get "zIndex") := by
  obtain ⟨t, s, cs, hg⟩ := getElementById_sound atFire v p hf
  have key : ∀ n : Nat, ∃ (wn : Window),
      pageLoadN parse n search atLoad atFire = .ok wn ∧
      wn.document.get? p =
        some (.element t v (highlightStyle^[n] s) (cs ++ List.replicate n badge)) := by
    intro n
    exact ⟨_, pageLoadN_found parse n search atLoad atFire v p t s cs hq hv hf hg,
      Node.get?_replace_same p atFire _ _ hg⟩
  obtain ⟨w1, h1, h1'⟩ := key 1
  obtain ⟨w2, h2, h2'⟩ := key 2
  refine ⟨t, s, cs, w1, highlightStyle s, hg, h1, h1', by decide, ?_, ?_⟩
  · exact ⟨w2, highlightStyle^[2] s, h2, h2', by simp, highlightStyle_iterate s 1⟩
  · intro n
    obtain ⟨wn, hn, hn'⟩ := key n
    refine ⟨wn, highlightStyle^[n] s, hn, hn', by simp, ?_⟩
    intro h1n
    obtain ⟨m, rfl⟩ : ∃ m, n = m + 1 := ⟨n - 1, by omega⟩
    rw [highlightStyle_iterate s m]
    exact ⟨rfl, rfl, rfl, rfl, rfl, rfl⟩

/-- C6: on every success path the z-index assigned to the appended badge reads as the
    integer 51, the z-index assigned to the target reads as the integer 50, and the first is
    strictly greater than the second (they are stored as the strings "51" and "50"). -/
theorem C6_badge_above_target (parse : String → URLSearchParams) (search : String)
    (atLoad atFire : Node) (v : String) (p : Path)
    (hq : URLSearchParams.get (parse search) "highlight" = some v) (hv : v ≠ "")
    (hf : getElementById atFire v = some p) :
    ∃ (t : String) (s' : Style) (cs : List Node) (b : Node) (w' : Window) (zt zb : Int),
      pageLoad parse search atLoad atFire = .ok w' ∧
      w'.document.get? p = some (.element t v s' (cs ++ [b])) ∧
      s'.get "zIndex" = some "50" ∧ b.style.get "zIndex" = some "51" ∧
      (s'.get "zIndex").bind readInteger = some zt ∧
      (b.style.get "zIndex").bind readInteger = some zb ∧
      zt = 50 ∧ zb = 51 ∧ zt < zb := by
  obtain ⟨t, s, cs, hg⟩ := getElementById_sound atFire v p hf
  exact ⟨t, highlightStyle s, cs, badge, _, 50, 51,
    pageLoad_found parse search atLoad atFire v p t s cs hq hv hf hg,
    Node.get?_replace_same p atFire _ _ hg, highlightStyle_get_zIndex s, by decide,
    by rw [highlightStyle_get_zIndex s]; decide, by decide, rfl, rfl, by decide⟩

/-- C7: with a non-empty highlight value the handler schedules exactly one timer, with delay
    100, and changes nothing else; the lookup happens when the timer fires: an element with
    the target id that is absent when the handler runs but present when the timer fires is
    highlighted, and an element present when the handler runs but gone when the timer fires
    gives a silent no-op. -/
theorem C7_lookup_at_fire_time (parse : String → URLSearchParams) (search : String)
    (v : String) (hq : URLSearchParams.get (parse search) "highlight" = some v)
    (hv : v ≠ "") :
    (∀ atLoad : Node, handler parse (initialWindow search atLoad) =
      { initialWindow search atLoad with timers := [⟨100, v⟩] }) ∧
    (∀ (atLoad atFire : Node) (p : Path), getElementById atLoad v = none →
      getElementById atFire v = some p →
      ∃ (t : String) (s : Style) (cs : List Node),
        atFire.get? p = some (.element t v s cs) ∧
        pageLoad parse search atLoad atFire = .ok
          { search := search
            document := atFire.replace p (highlighted t v s cs)
            timers := []
            scrollCalls := [⟨p, ⟨"smooth", "center"⟩⟩]
            created := 1 } ∧
        (atFire.replace p (highlighted t v s cs)).get? p = some (highlighted t v s cs)) ∧
    (∀ (atLoad atFire : Node) (p : Path), getElementById atLoad v = some p →
      getElementById atFire v = none →
      pageLoad parse search atLoad atFire = .ok (initialWindow search atFire)) := by
  refine ⟨?_, ?_, ?_⟩
  · intro atLoad
    rw [handler_schedules parse (initialWindow search atLoad) v hq hv]
    rfl
  · intro atLoad atFire p _ hf
    obtain ⟨t, s, cs, hg⟩ := getElementById_sound atFire v p hf
    exact ⟨t, s, cs, hg, pageLoad_found parse search atLoad atFire v p t s cs hq hv hf hg,
      Node.get?_replace_same p atFire _ _ hg⟩
  · intro atLoad atFire p _ hf
    exact pageLoadN_not_found parse 1 search atLoad atFire v hq hv hf

/-- C8: on every success path the appended badge (the new last child of the target) carries
    exactly the inline style position "absolute", top "-12px", right "10px",
    backgroundColor "#ef4444", color "white", fontSize "12px", fontWeight "bold",
    padding "4px 8px", borderRadius "12px", zIndex "51",
    boxShadow "0 2px 5px rgba(0,0,0,0.2)", and its text content is "실험 대상 (Target)"
    whatever the highlight value is. -/
theorem C8_badge_style (parse : String → URLSearchParams) (search : String)
    (atLoad atFire : Node) (v : String) (p : Path)
    (hq : URLSearchParams.get (parse search) "highlight" = some v) (hv : v ≠ "")
    (hf : getElementById atFire v = some p) :
    ∃ (t : String) (s' : Style) (cs : List Node) (b : Node) (w' : Window),
      pageLoad parse search atLoad atFire = .ok w' ∧
      w'.document.get? p = some (.element t v s' (cs ++ [b])) ∧
      b.style =
        [("position", "absolute"), ("top", "-12px"), ("right", "10px"),
         ("backgroundColor", "#ef4444"), ("color", "white"), ("fontSize", "12px"),
         ("fontWeight", "bold"), ("padding", "4px 8px"), ("borderRadius", "12px"),
         ("zIndex", "51"), ("boxShadow", "0 2px 5px rgba(0,0,0,0.2)")] ∧
      b.textContent = "실험 대상 (Target)" := by
  obtain ⟨t, s, cs, hg⟩ := getElementById_sound atFire v p hf
  exact ⟨t, highlightStyle s, cs, badge, _,
    pageLoad_found parse search atLoad atFire v p t s cs hq hv hf hg,
    Node.get?_replace_same p atFire _ _ hg, rfl, by decide⟩

/-- C9 as stated fails: on the example page the glow shadow the script assigns to the target,
    read by the CSS grammar, has no spread radius at all, so its spread radius is not 20px. -/
theorem C9_spread_radius_is_not_20px :
    ∃ (w' : Window) (n : Node) (value : String) (shadow : BoxShadow),
      pageLoad exampleParse "?highlight=foo" exampleDocument exampleDocument = .ok w' ∧
      w'.document.get? [1] = some n ∧
      n.style.get "boxShadow" = some value ∧
      parseBoxShadow value = some shadow ∧
      shadow.spreadRadius = none ∧
      shadow.spreadRadius ≠ some ⟨⟨false, 20, 0⟩, "px"⟩ :=
  ⟨_, _, _,
    { inset := false
      offsetX := ⟨⟨false, 0, 0⟩, ""⟩
      offsetY := ⟨⟨false, 0, 0⟩, ""⟩
      blurRadius := some ⟨⟨false, 20, 0⟩, "px"⟩
      spreadRadius := none
      color := some (.rgb ⟨false, 239, 0⟩ ⟨false, 68, 0⟩ ⟨false, 68, 0⟩ (some ⟨false, 6, 1⟩)) },
    rfl, rfl, rfl, by decide, rfl, by decide⟩

/-- C9 (amended): on every success path the glow shadow set on the target, read by the CSS
    grammar (offset-x, offset-y, blur radius, spread radius, colour), has offsets 0 and 0, a
    blur radius of 20px, no spread radius, is not inset, and has the colour red 239,
    green 68, blue 68, alpha 0.6. -/
theorem C9_glow_blur_and_colour (parse : String → URLSearchParams) (search : String)
    (atLoad atFire : Node) (v : String) (p : Path)
    (hq : URLSearchParams.get (parse search) "highlight" = some v) (hv : v ≠ "")
    (hf : getElementById atFire v = some p) :
    ∃ (w' : Window) (n : Node) (value : String),
      pageLoad parse search atLoad atFire = .ok w' ∧
      w'.document.get? p = some n ∧
      n.style.get "boxShadow" = some value ∧
      parseBoxShadow value = some
        { inset := false
          offsetX := ⟨⟨false, 0, 0⟩, ""⟩
          offsetY := ⟨⟨false, 0, 0⟩, ""⟩
          blurRadius := some ⟨⟨false, 20, 0⟩, "px"⟩
          spreadRadius := none
          color := some (.rgb ⟨false, 239, 0⟩ ⟨false, 68, 0⟩ ⟨false, 68, 0⟩
            (some ⟨false, 6, 1⟩)) } := by
  obtain ⟨t, s, cs, hg⟩ := getElementById_sound atFire v p hf
  exact ⟨_, _, _, pageLoad_found parse search atLoad atFire v p t s cs hq hv hf hg,
    Node.get?_replace_same p atFire _ _ hg, highlightStyle_get_boxShadow s, by decide⟩

/-- C10 as stated fails: on a page whose target carries the inline declaration
    `border-top-color: blue`, the load succeeds, and `borderTopColor`, which is none of
    border, boxShadow, transition, position and zIndex, does not keep its prior value
    "blue": the assignment to the shorthand `border` supersedes it. -/
theorem C10_longhand_not_kept :
    ∃ (w' : Window) (s s' : Style) (cs : List Node) (b : Node),
      getElementById exampleDocumentWithBorderColor "foo" = some [0] ∧
      exampleDocumentWithBorderColor.get? [0] = some (.element "p" "foo" s cs) ∧
      pageLoad exampleParse "?highlight=foo" exampleDocumentWithBorderColor
        exampleDocumentWithBorderColor = .ok w' ∧
      w'.document.get? [0] = some (.element "p" "foo" s' (cs ++ [b])) ∧
      ("borderTopColor" ≠ "border" ∧ "borderTopColor" ≠ "boxShadow" ∧
        "borderTopColor" ≠ "transition" ∧ "borderTopColor" ≠ "position" ∧
        "borderTopColor" ≠ "zIndex") ∧
      s.get "borderTopColor" = some "blue" ∧
      s'.get "borderTopColor" ≠ s.get "borderTopColor" :=
  ⟨_, [("borderTopColor", "blue")], highlightStyle [("borderTopColor", "blue")],
    [.text "hi"], badge, by decide, rfl, rfl, rfl, by decide, by decide, by decide⟩

/-- C10 (amended): on every success path the document after the load is the document at
    fire time with only the target replaced by itself with a new style and one more child:
    the target keeps its tag and id; every inline style property other than border,
    boxShadow, transition, position and zIndex that those assignments do not supersede
    (so not a sub-property of the border or transition shorthands, and not the shorthand
    `all`) keeps its prior value; the prior children are kept in order with the badge
    appended last; every node outside the target's subtree keeps its own properties (and no
    node appears or disappears there); and every prior descendant of the target is
    unchanged. -/
theorem C10_frame (parse : String → URLSearchParams) (search : String)
    (atLoad atFire : Node) (v : String) (p : Path)
    (hq : URLSearchParams.get (parse search) "highlight" = some v) (hv : v ≠ "")
    (hf : getElementById atFire v = some p) :
    ∃ (t : String) (s s' : Style) (cs : List Node) (b : Node) (w' : Window),
      atFire.get? p = some (.element t v s cs) ∧
      pageLoad parse search atLoad atFire = .ok w' ∧
      w'.document = atFire.replace p (.element t v s' (cs ++ [b])) ∧
      w'.document.get? p = some (.element t v s' (cs ++ [b])) ∧
      (∀ k : String, k ≠ "border" → k ≠ "boxShadow" → k ≠ "transition" → k ≠ "position" →
        k ≠ "zIndex" → k ∉ superseded "border" → k ∉ superseded "transition" →
        s'.get k = s.get k) ∧
      (∀ j : Nat, j < cs.length → (cs ++ [b])[j]? = cs[j]?) ∧
      (cs ++ [b])[cs.length]? = some b ∧
      (cs ++ [b]).length = cs.length + 1 ∧
      (∀ q : Path, ¬ p <+: q →
        (w'.document.get? q).map Node.info = (atFire.get? q).map Node.info) ∧
      (∀ (j : Nat) (r : Path), j < cs.length →
        w'.document.get? (p ++ j :: r) = atFire.get? (p ++ j :: r)) := by
  obtain ⟨t, s, cs, hg⟩ := getElementById_sound atFire v p hf
  have hg' := Node.get?_replace_same p atFire _ (highlighted t v s cs) hg
  refine ⟨t, s, highlightStyle s, cs, badge, _, hg,
    pageLoad_found parse search atLoad atFire v p t s cs hq hv hf hg, rfl, hg',
    fun k h1 h2 h3 h4 h5 hb ht => highlightStyle_get_other s k h1 h2 h3 h4 h5 hb ht, ?_,
    by simp, by simp, ?_, ?_⟩
  · intro j hj
    exact List.getElem?_append_left hj
  · intro q hpq
    exact Node.info_get?_replace p atFire _ _ q hg hpq
  · intro j r hj
    rw [Node.get?_append, Node.get?_append, hg', hg]
    simp only [Option.some_bind, highlighted, Node.get?, List.getElem?_append_left hj]

/-! ## The claims at concrete inputs -/

theorem C1_witness :
    URLSearchParams.get (exampleParse "?highlight=foo") "highlight" = some "foo" ∧
    "foo" ≠ "" ∧
    exampleDocument.get? [1] = some (.element "p" "foo" [("color", "red")] [.text "hi"]) ∧
    ∃ (p : Path) (t : String) (s : Style) (cs : List Node) (w' : Window) (s' : Style)
      (b : Node),
      getElementById exampleDocument "foo" = some p ∧
      exampleDocument.get? p = some (.element t "foo" s cs) ∧
      pageLoad exampleParse "?highlight=foo" exampleDocumentWithoutFoo exampleDocument
        = .ok w' ∧
      w'.document.get? p = some (.element t "foo" s' (cs ++ [b])) ∧
      s'.get "border" = some "4px solid #ef4444" ∧
      s'.get "boxShadow" = some "0 0 20px rgba(239, 68, 68, 0.6)" ∧
      s'.get "transition" = some "all 0.5s ease-in-out" ∧
      s'.get "position" = some "relative" ∧
      s'.get "zIndex" = some "50" ∧
      (cs ++ [b]).length = cs.length + 1 ∧
      b.tag? = some "div" ∧
      b.textContent = "실험 대상 (Target)" :=
  ⟨by decide, by decide, rfl,
    C1_success_highlights_target exampleParse "?highlight=foo" exampleDocumentWithoutFoo
      exampleDocument "foo" [1] "p" [("color", "red")] [.text "hi"] (by decide) (by decide)
      rfl⟩

theorem C2_witness :
    (URLSearchParams.get (exampleParse "?page=2") "highlight" = none ∨
      URLSearchParams.get (exampleParse "?page=2") "highlight" = some "") ∧
    handler exampleParse (initialWindow "?page=2" exampleDocument)
      = initialWindow "?page=2" exampleDocument ∧
    (handler exampleParse (initialWindow "?page=2" exampleDocument)).timers = [] ∧
    pageLoad exampleParse "?page=2" exampleDocument exampleDocument
      = .ok (initialWindow "?page=2" exampleDocument) :=
  have h := C2_absent_or_empty_is_noop exampleParse (initialWindow "?page=2" exampleDocument)
    (Or.inl (by decide))
  ⟨Or.inl (by decide), h.1, h.2.2.1, h.2.2.2.2.2 exampleDocument exampleDocument⟩

theorem C3_witness :
    URLSearchParams.get (exampleParse "?highlight=foo") "highlight" = some "foo" ∧
    "foo" ≠ "" ∧
    (∀ (q : Path) (t : String) (s : Style) (cs : List Node),
      exampleDocumentWithoutFoo.get? q ≠ some (.element t "foo" s cs)) ∧
    (handler exampleParse (initialWindow "?highlight=foo" exampleDocument)).document
      = exampleDocument ∧
    (∀ w : Window, w.document = exampleDocumentWithoutFoo → timerCallback "foo" w = .ok w) ∧
    pageLoad exampleParse "?highlight=foo" exampleDocument exampleDocumentWithoutFoo
      = .ok (initialWindow "?highlight=foo" exampleDocumentWithoutFoo) :=
  have hno : ∀ (q : Path) (t : String) (s : Style) (cs : List Node),
      exampleDocumentWithoutFoo.get? q ≠ some (.element t "foo" s cs) :=
    fun q t s cs h =>
      findNode_complete "foo" q exampleDocumentWithoutFoo t s cs h (by decide)
  ⟨by decide, by decide, hno,
    C3_unresolved_is_noop exampleParse "?highlight=foo" exampleDocument
      exampleDocumentWithoutFoo "foo" (by decide) (by decide) hno⟩

theorem C5_witness :
    URLSearchParams.get (exampleParse "?highlight=foo") "highlight" = some "foo" ∧
    "foo" ≠ "" ∧
    getElementById exampleDocument "foo" = some [1] ∧
    ∃ (w2 : Window) (s2 : Style) (cs : List Node),
      pageLoadN exampleParse 2 "?highlight=foo" exampleDocument exampleDocument = .ok w2 ∧
      w2.document.get? [1] = some (.element "p" "foo" s2 (cs ++ [badge, badge])) ∧
      (cs ++ [badge, badge]).length = cs.length + 2 :=
  ⟨by decide, by decide, by decide,
    match C5_repeated_runs_duplicate_badge exampleParse "?highlight=foo" exampleDocument
      exampleDocument "foo" [1] (by decide) (by decide) (by decide) with
    | ⟨_, _, cs, _, _, hg, _, _, _, ⟨w2, s2, h2, h2', hlen, _⟩, _⟩ =>
      have ht : exampleDocument.get? [1]
          = some (.element "p" "foo" [("color", "red")] [.text "hi"]) := rfl
      ⟨w2, s2, cs, h2, by
        rw [ht] at hg
        injection hg with hg
        injection hg with h1 _ _ _
        rw [h1]
        exact h2', hlen⟩⟩

theorem C6_witness :
    URLSearchParams.get (exampleParse "?highlight=foo") "highlight" = some "foo" ∧
    "foo" ≠ "" ∧
    getElementById exampleDocument "foo" = some [1] ∧
    ∃ (t : String) (s' : Style) (cs : List Node) (b : Node) (w' : Window) (zt zb : Int),
      pageLoad exampleParse "?highlight=foo" exampleDocument exampleDocument = .ok w' ∧
      w'.document.get? [1] = some (.element t "foo" s' (cs ++ [b])) ∧
      s'.get "zIndex" = some "50" ∧ b.style.get "zIndex" = some "51" ∧
      (s'.get "zIndex").bind readInteger = some zt ∧
      (b.style.get "zIndex").bind readInteger = some zb ∧
      zt = 50 ∧ zb = 51 ∧ zt < zb :=
  ⟨by decide, by decide, by decide,
    C6_badge_above_target exampleParse "?highlight=foo" exampleDocument exampleDocument
      "foo" [1] (by decide) (by decide) (by decide)⟩

theorem C7_witness :
    URLSearchParams.get (exampleParse "?highlight=foo") "highlight" = some "foo" ∧
    "foo" ≠ "" ∧
    getElementById exampleDocumentWithoutFoo "foo" = none ∧
    getElementById exampleDocument "foo" = some [1] ∧
    handler exampleParse (initialWindow "?highlight=foo" exampleDocumentWithoutFoo) =
      { initialWindow "?highlight=foo" exampleDocumentWithoutFoo with
        timers := [⟨100, "foo"⟩] } ∧
    (∃ (t : String) (s : Style) (cs : List Node),
      exampleDocument.get? [1] = some (.element t "foo" s cs) ∧
      pageLoad exampleParse "?highlight=foo" exampleDocumentWithoutFoo exampleDocument = .ok
        { search := "?highlight=foo"
          document := exampleDocument.replace [1] (highlighted t "foo" s cs)
          timers := []
          scrollCalls := [⟨[1], ⟨"smooth", "center"⟩⟩]
          created := 1 } ∧
      (exampleDocument.replace [1] (highlighted t "foo" s cs)).get? [1]
        = some (highlighted t "foo" s cs)) ∧
    pageLoad exampleParse "?highlight=foo" exampleDocument exampleDocumentWithoutFoo
      = .ok (initialWindow "?highlight=foo" exampleDocumentWithoutFoo) :=
  have h := C7_lookup_at_fire_time exampleParse "?highlight=foo" "foo" (by decide)
    (by decide)
  ⟨by decide, by decide, by decide, by decide, h.1 exampleDocumentWithoutFoo,
    h.2.1 exampleDocumentWithoutFoo exampleDocument [1] (by decide) (by decide),
    h.2.2 exampleDocument exampleDocumentWithoutFoo [1] (by decide) (by decide)⟩

theorem C8_witness :
    URLSearchParams.get (exampleParse "?highlight=foo") "highlight" = some "foo" ∧
    "foo" ≠ "" ∧
    getElementById exampleDocument "foo" = some [1] ∧
    ∃ (t : String) (s' : Style) (cs : List Node) (b : Node) (w' : Window),
      pageLoad exampleParse "?highlight=foo" exampleDocument exampleDocument = .ok w' ∧
      w'.document.get? [1] = some (.element t "foo" s' (cs ++ [b])) ∧
      b.style =
        [("position", "absolute"), ("top", "-12px"), ("right", "10px"),
         ("backgroundColor", "#ef4444"), ("color", "white"), ("fontSize", "12px"),
         ("fontWeight", "bold"), ("padding", "4px 8px"), ("borderRadius", "12px"),
         ("zIndex", "51"), ("boxShadow", "0 2px 5px rgba(0,0,0,0.2)")] ∧
      b.textContent = "실험 대상 (Target)" :=
  ⟨by decide, by decide, by decide,
    C8_badge_style exampleParse "?highlight=foo" exampleDocument exampleDocument "foo" [1]
      (by decide) (by decide) (by decide)⟩

theorem C9_witness :
    URLSearchParams.get (exampleParse "?highlight=foo") "highlight" = some "foo" ∧
    "foo" ≠ "" ∧
    getElementById exampleDocument "foo" = some [1] ∧
    ∃ (w' : Window) (n : Node) (value : String),
      pageLoad exampleParse "?highlight=foo" exampleDocument exampleDocument = .ok w' ∧
      w'.document.get? [1] = some n ∧
      n.style.get "boxShadow" = some value ∧
      parseBoxShadow value = some
        { inset := false
          offsetX := ⟨⟨false, 0, 0⟩, ""⟩
          offsetY := ⟨⟨false, 0, 0⟩, ""⟩
          blurRadius := some ⟨⟨false, 20, 0⟩, "px"⟩
          spreadRadius := none
          color := some (.rgb ⟨false, 239, 0⟩ ⟨false, 68, 0⟩ ⟨false, 68, 0⟩
            (some ⟨false, 6, 1⟩)) } :=
  ⟨by decide, by decide, by decide,
    C9_glow_blur_and_colour exampleParse "?highlight=foo" exampleDocument exampleDocument
      "foo" [1] (by decide) (by decide) (by decide)⟩

theorem C10_witness :
    URLSearchParams.get (exampleParse "?highlight=foo") "highlight" = some "foo" ∧
    "foo" ≠ "" ∧
    getElementById exampleDocument "foo" = some [1] ∧
    ∃ (t : String) (s s' : Style) (cs : List Node) (b : Node) (w' : Window),
      exampleDocument.get? [1] = some (.element t "foo" s cs) ∧
      pageLoad exampleParse "?highlight=foo" exampleDocument exampleDocument = .ok w' ∧
      w'.document = exampleDocument.replace [1] (.element t "foo" s' (cs ++ [b])) ∧
      w'.document.get? [1] = some (.element t "foo" s' (cs ++ [b])) ∧
      (∀ k : String, k ≠ "border" → k ≠ "boxShadow" → k ≠ "transition" → k ≠ "position" →
        k ≠ "zIndex" → k ∉ superseded "border" → k ∉ superseded "transition" →
        s'.get k = s.get k) ∧
      (∀ j : Nat, j < cs.length → (cs ++ [b])[j]? = cs[j]?) ∧
      (cs ++ [b])[cs.length]? = some b ∧
      (cs ++ [b]).length = cs.length + 1 ∧
      (∀ q : Path, ¬ [1] <+: q →
        (w'.document.get? q).map Node.info = (exampleDocument.get? q).map Node.info) ∧
      (∀ (j : Nat) (r : Path), j < cs.length →
        w'.document.get? ([1] ++ j :: r) = exampleDocument.get? ([1] ++ j :: r)) :=
  ⟨by decide, by decide, by decide,
    C10_frame exampleParse "?highlight=foo" exampleDocument exampleDocument "foo" [1]
      (by decide) (by decide) (by decide)⟩

end Highlight
